import Mathlib

/-!
Shallow embedding of the TableTalk restaurant-reservation demo
(`src/services/callingService.ts` and `src/services/llmService.ts`),
together with theorems settling the specification claims about the
calling/booking orchestration and the preference ranker.

JavaScript numbers that can become NaN through a division are modelled by
the `JSNum` type; data fields (ratings, distances, random draws) are exact
rationals.  `Math.random()` draws are passed in explicitly; the base-36
fractional digit string produced by `Math.random().toString(36)` is
modelled as the list of fractional digits (empty when the representation
terminates immediately, as for a draw of 0).  Wall-clock time is modelled
by one abstract millisecond timestamp per reference generation, and the
status-poll loop advances an idealised clock by its 2000 ms poll interval
per iteration.
-/

namespace TableTalk

/-- Coordinates of a restaurant (`coordinates` field in `types/index.ts`). -/
structure Coordinates where
  lat : ℚ
  lng : ℚ
deriving DecidableEq

/-- The `Restaurant` record of `src/types/index.ts`. -/
structure Restaurant where
  id : String
  name : String
  address : String
  cuisineType : String
  priceRange : String
  rating : ℚ
  dietaryOptions : List String
  ambianceType : String
  phoneNumber : String
  distanceFromUser : ℚ
  coordinates : Coordinates
deriving DecidableEq

/-- The `UserProfile` record of `src/types/index.ts`. -/
structure UserProfile where
  name : String
  surname : String
  cuisinePreferences : List String
  priceRangePreference : String
  dietaryRestrictions : List String
  ambiancePreference : String
deriving DecidableEq

/-- The `BookingDetails` record of `src/types/index.ts`. -/
structure BookingDetails where
  restaurantId : String
  restaurant : Restaurant
  bookingTime : String
  numberOfPeople : Nat
  bookingReference : String
  confirmationDetails : String
deriving DecidableEq

/-- The `LLMRankingResponse` record of `src/types/index.ts`. -/
structure LLMRankingResponse where
  rankedRestaurants : List Restaurant
  reasoning : String
  timestamp : String
deriving DecidableEq

/-- Options of a call-flow step (`BirdCallFlowStep.options`). -/
structure BirdCallFlowOptions where
  locale : String
  text : String
  voice : String
deriving DecidableEq

/-- One step of the Bird.com call flow (`BirdCallFlowStep`). -/
structure BirdCallFlowStep where
  command : String
  options : Option BirdCallFlowOptions
deriving DecidableEq

/-- The request body submitted to the telephony backend (`BirdCallRequest`). -/
structure BirdCallRequest where
  «to» : String
  «from» : String
  flowStart : String
  ringTimeout : Nat
  maxDuration : Nat
  callFlow : List BirdCallFlowStep
deriving DecidableEq

namespace CallingService

/-- `CallingService.FROM_NUMBER`. -/
def FROM_NUMBER : String := "+3197058024656"

/-- `CallingService.TEST_NUMBER` — the fixed testing number used for all calls. -/
def TEST_NUMBER : String := "+31645143042"

/-- The call request constructed in `callRestaurant` (the `callRequest` local):
`to` is the fixed `TEST_NUMBER`, the flow says a caller-identified reservation
message and then hangs up. -/
def buildCallRequest (restaurant : Restaurant) (userName userSurname : String) :
    BirdCallRequest :=
  { «to» := TEST_NUMBER
    «from» := FROM_NUMBER
    flowStart := "from-answer"
    ringTimeout := 30
    maxDuration := 600
    callFlow :=
      [ { command := "say"
          options := some
            { locale := "en-US"
              text := "Hello, this is " ++ userName ++ " " ++ userSurname ++
                " calling " ++ restaurant.name ++
                " to make a reservation. I would like to book a table for 2 people at 7 PM today. Could you please check availability?"
              voice := "female" } }
      , { command := "hangup", options := none } ] }

/-- Lower-case base-36 digit characters, as produced by `Number.toString(36)`. -/
def base36Char (d : Nat) : Char :=
  match d with
  | 0 => '0' | 1 => '1' | 2 => '2' | 3 => '3' | 4 => '4'
  | 5 => '5' | 6 => '6' | 7 => '7' | 8 => '8' | 9 => '9'
  | 10 => 'a' | 11 => 'b' | 12 => 'c' | 13 => 'd' | 14 => 'e'
  | 15 => 'f' | 16 => 'g' | 17 => 'h' | 18 => 'i' | 19 => 'j'
  | 20 => 'k' | 21 => 'l' | 22 => 'm' | 23 => 'n' | 24 => 'o'
  | 25 => 'p' | 26 => 'q' | 27 => 'r' | 28 => 's' | 29 => 't'
  | 30 => 'u' | 31 => 'v' | 32 => 'w' | 33 => 'x' | 34 => 'y'
  | _ => 'z'

/-- Decimal digit characters of a natural number, most significant first
(the model of `n.toString()` for a nonnegative integer). -/
def decDigits (n : Nat) : List Char :=
  if h : n < 10 then [base36Char n]
  else decDigits (n / 10) ++ [base36Char (n % 10)]
termination_by n
decreasing_by exact Nat.div_lt_self (by omega) (by omega)

/-- `CallingService.generateBookingReference`.
`timestamp` models `Date.now()`; `randFrac` models the base-36 fractional
digits of the `Math.random()` draw, so that
`Math.random().toString(36).substring(2, 5)` is the first three of them
(fewer when the representation terminates early, e.g. a draw of 0 yields
the string "0" and an empty slice). -/
def generateBookingReference (timestamp : Nat) (randFrac : List Nat) : String :=
  let ts := decDigits timestamp
  let lastSix := ts.drop (ts.length - 6)
  let suffix := (randFrac.take 3).map (fun d => (base36Char d).toUpper)
  "TT" ++ String.mk lastSix ++ String.mk suffix

/-- `CallingService.processCallResult`: interpret a terminal Bird.com call
status.  `draw` models the `Math.random()` availability draw used in the
`completed` branch; `timestamp`/`randFrac` feed the booking reference. -/
def processCallResult (callStatus : String) (draw : ℚ) (timestamp : Nat)
    (randFrac : List Nat) (restaurant : Restaurant)
    (userName userSurname : String) : Option BookingDetails :=
  if callStatus = "completed" then
    -- 70% chance of availability for completed calls
    if draw < 7/10 then
      let bookingReference := generateBookingReference timestamp randFrac
      let confirmationDetails := "Booking confirmed for " ++ userName ++ " " ++
        userSurname ++ ", table for 2 at 19:00 today. Reference: " ++
        bookingReference
      some { restaurantId := restaurant.id
             restaurant := restaurant
             bookingTime := "19:00"
             numberOfPeople := 2
             bookingReference := bookingReference
             confirmationDetails := confirmationDetails }
    else none
  else if callStatus = "busy" then none
  else if callStatus = "no-answer" then none
  else if callStatus = "failed" then none
  else none

/-- The fallback availability probability of `mockCallBehavior`:
`Math.max(0.3, 0.9 - (callNumber - 1) * 0.2)`. -/
def availabilityChance (callNumber : Nat) : ℚ :=
  max (3/10) (9/10 - ((callNumber : ℚ) - 1) * (2/10))

/-- `CallingService.mockCallBehavior`: the Fallback Path taken when the
telephony backend is unavailable. -/
def mockCallBehavior (draw : ℚ) (timestamp : Nat) (randFrac : List Nat)
    (restaurant : Restaurant) (userName userSurname : String)
    (callNumber : Nat) : Option BookingDetails :=
  if draw < availabilityChance callNumber then
    let bookingReference := generateBookingReference timestamp randFrac
    let confirmationDetails := "Mock booking confirmed for " ++ userName ++
      " " ++ userSurname ++ ", table for 2 at 19:00 today. Reference: " ++
      bookingReference
    some { restaurantId := restaurant.id
           restaurant := restaurant
           bookingTime := "19:00"
           numberOfPeople := 2
           bookingReference := bookingReference
           confirmationDetails := confirmationDetails }
  else none

/-- Terminal call statuses recognised by `waitForCallCompletion`. -/
def isTerminalStatus (s : String) : Bool :=
  ["completed", "failed", "busy", "no-answer"].contains s

/-- The `maxWaitTime` default of `waitForCallCompletion` (milliseconds). -/
def maxWaitTime : Nat := 60000

/-- The `pollInterval` of `waitForCallCompletion` (milliseconds). -/
def pollInterval : Nat := 2000

/-- The polling loop of `waitForCallCompletion`.  `polls tick` is the result
of the `getCallStatus` request at the given tick (`none` models a poll
error / null response); a poll error or a non-terminal status waits one
poll interval and polls again.  Each iteration advances the idealised
clock by the 2000 ms poll interval, so the loop body runs while elapsed
time is below the 60000 ms ceiling: `fuel` is the number of remaining
ticks, `maxWaitTime / pollInterval = 30` at the start. -/
def waitLoop (polls : Nat → Option String) (tick : Nat) :
    Nat → Option String
  | 0 => none
  | fuel + 1 =>
      match polls tick with
      | none => waitLoop polls (tick + 1) fuel
      | some s =>
          if isTerminalStatus s then some s else waitLoop polls (tick + 1) fuel

/-- `CallingService.waitForCallCompletion` with the default 60000 ms ceiling:
poll every 2000 ms until a terminal status or until the ceiling elapses
(30 ticks), in which case the result is null. -/
def waitForCallCompletion (polls : Nat → Option String) : Option String :=
  waitLoop polls 0 (maxWaitTime / pollInterval)

/-- The environment of one `callRestaurant` attempt: the telephony backend's
responses and the random draws consumed during the attempt.
`submission = none` models `makeBirdApiCall` failing (null response);
`some id` models a successful call creation. -/
structure CallEnv where
  submission : Option String
  polls : Nat → Option String
  completedDraw : ℚ
  fallbackDraw : ℚ
  timestamp : Nat
  randFrac : List Nat

/-- Result of one `callRestaurant` attempt, with a flag recording whether
the Fallback Path (`mockCallBehavior`) was used. -/
structure CallOutcome where
  result : Option BookingDetails
  fallbackUsed : Bool
deriving DecidableEq

/-- `CallingService.callRestaurant`: submit the call; on submission failure
fall back to mock behaviour; otherwise poll for the final status and either
process it (`processCallResult`) or, on poll timeout, fall back. -/
def callRestaurant (env : CallEnv) (restaurant : Restaurant)
    (userName userSurname : String) (callNumber totalCalls : Nat) :
    CallOutcome :=
  match env.submission with
  | none =>
      { result := mockCallBehavior env.fallbackDraw env.timestamp env.randFrac
          restaurant userName userSurname callNumber
        fallbackUsed := true }
  | some _ =>
      match waitForCallCompletion env.polls with
      | some finalStatus =>
          { result := processCallResult finalStatus env.completedDraw
              env.timestamp env.randFrac restaurant userName userSurname
            fallbackUsed := false }
      | none =>
          { result := mockCallBehavior env.fallbackDraw env.timestamp
              env.randFrac restaurant userName userSurname callNumber
            fallbackUsed := true }

/-- Observable events of an orchestration run: a call to the candidate at a
0-based list position is started / resolved (`success` records whether it
produced a BookingRecord). -/
inductive CallEvent where
  | start (idx : Nat)
  | resolved (idx : Nat) (success : Bool)
deriving DecidableEq

/-- Whether an event is the start of a call. -/
def CallEvent.isStart : CallEvent → Bool
  | .start _ => true
  | .resolved _ _ => false

/-- State of a whole `callRestaurants` run: the event trace and the result. -/
structure RunState where
  trace : List CallEvent
  result : Option BookingDetails
deriving DecidableEq

/-- The loop body of `callRestaurants`: iterate the remaining candidates
starting at 0-based position `i` (so `callRestaurant` receives call number
`i + 1`), stopping at the first successful attempt. -/
def callRun (envs : Nat → CallEnv) (userName userSurname : String)
    (totalCalls : Nat) : List Restaurant → Nat → RunState
  | [], _ => { trace := [], result := none }
  | restaurant :: rest, i =>
      let attempt := callRestaurant (envs i) restaurant userName userSurname
        (i + 1) totalCalls
      match attempt.result with
      | some b =>
          { trace := [.start i, .resolved i true], result := some b }
      | none =>
          let st := callRun envs userName userSurname totalCalls rest (i + 1)
          { trace := .start i :: .resolved i false :: st.trace
            result := st.result }

/-- `CallingService.callRestaurants`: call the ranked candidates in order,
returning the first confirmed booking, or null when every attempt fails. -/
def callRestaurants (envs : Nat → CallEnv) (restaurants : List Restaurant)
    (userName userSurname : String) : RunState :=
  callRun envs userName userSurname restaurants.length restaurants 0

/-- 0-based positions of the call-start events of a trace, in order. -/
def startIndices (trace : List CallEvent) : List Nat :=
  trace.filterMap fun e =>
    match e with
    | .start i => some i
    | .resolved _ _ => none

/-- Number of calls attempted during a run. -/
def callCount (st : RunState) : Nat := (startIndices st.trace).length

/-- A trace consists of consecutive start/resolved pairs for one candidate at
a time: no call starts before the previous one is resolved. -/
def pairedTrace : List CallEvent → Bool
  | [] => true
  | .start i :: .resolved j _ :: rest => i = j && pairedTrace rest
  | _ => false

/-- After a successful resolution no further call is started. -/
def noStartAfterSuccess : List CallEvent → Bool
  | [] => true
  | .resolved _ true :: rest => rest.all fun e => !e.isStart
  | _ :: rest => noStartAfterSuccess rest

end CallingService

/-- A JavaScript number as used by the ranking code: an exact rational, NaN,
or a signed infinity (`pos = true` for positive infinity). -/
inductive JSNum where
  | num (q : ℚ)
  | nan
  | inf (pos : Bool)
deriving DecidableEq

namespace JSNum

/-- JavaScript addition. -/
def add : JSNum → JSNum → JSNum
  | num a, num b => num (a + b)
  | nan, _ => nan
  | _, nan => nan
  | inf s, inf t => if s = t then inf s else nan
  | inf s, num _ => inf s
  | num _, inf t => inf t

/-- JavaScript subtraction. -/
def sub : JSNum → JSNum → JSNum
  | num a, num b => num (a - b)
  | nan, _ => nan
  | _, nan => nan
  | inf s, inf t => if s = t then nan else inf s
  | inf s, num _ => inf s
  | num _, inf t => inf (!t)

/-- JavaScript multiplication. -/
def mul : JSNum → JSNum → JSNum
  | num a, num b => num (a * b)
  | nan, _ => nan
  | _, nan => nan
  | inf s, inf t => inf (s = t)
  | inf s, num b => if b = 0 then nan else inf (s = decide (0 < b))
  | num a, inf t => if a = 0 then nan else inf (t = decide (0 < a))

/-- JavaScript division (in particular `0 / 0 = NaN`). -/
def div : JSNum → JSNum → JSNum
  | num a, num b =>
      if b = 0 then (if a = 0 then nan else inf (decide (0 ≤ a))) else num (a / b)
  | nan, _ => nan
  | _, nan => nan
  | inf _, inf _ => nan
  | inf s, num b => if 0 ≤ b then inf s else inf (!s)
  | num _, inf _ => num 0

/-- `Math.max` (NaN-propagating). -/
def maxJS : JSNum → JSNum → JSNum
  | num a, num b => num (max a b)
  | nan, _ => nan
  | _, nan => nan
  | inf s, inf t => inf (s || t)
  | inf s, num b => if s then inf true else num b
  | num a, inf t => if t then inf true else num a

/-- JavaScript `<` comparison (false whenever NaN is involved). -/
def ltJS : JSNum → JSNum → Bool
  | num a, num b => decide (a < b)
  | nan, _ => false
  | _, nan => false
  | inf s, inf t => !s && t
  | inf s, num _ => !s
  | num _, inf t => t

/-- Whether a JavaScript number is an ordinary finite number. -/
def isNum : JSNum → Bool
  | num _ => true
  | _ => false

/-- The rational value of a finite JavaScript number (0 otherwise). -/
def val : JSNum → ℚ
  | num q => q
  | _ => 0

end JSNum

namespace LLMService

/-- `LLMService.calculateRestaurantScore`, computed in JavaScript number
semantics (the dietary term divides by `dietaryRestrictions.length` without
a guard, so an empty restriction list yields `0 / 0 = NaN`). -/
def calculateRestaurantScore (restaurant : Restaurant)
    (userProfile : UserProfile) : JSNum :=
  let score : JSNum := .num 0
  -- Cuisine preference match (40% weight)
  let score := if userProfile.cuisinePreferences.contains restaurant.cuisineType
    then score.add (.num 40) else score
  -- Price range match (25% weight), with partial match one tier below
  let score := if restaurant.priceRange = userProfile.priceRangePreference
    then score.add (.num 25)
    else if (userProfile.priceRangePreference = "€€" ∧ restaurant.priceRange = "€") ∨
        (userProfile.priceRangePreference = "€€€" ∧ restaurant.priceRange = "€€")
    then score.add (.num 15) else score
  -- Ambiance match (20% weight)
  let score := if restaurant.ambianceType = userProfile.ambiancePreference
    then score.add (.num 20) else score
  -- Dietary restrictions (10% weight)
  let matchingDietaryOptions := userProfile.dietaryRestrictions.filter
    fun restriction => restaurant.dietaryOptions.contains restriction
  let score := score.add ((JSNum.div (.num matchingDietaryOptions.length)
    (.num userProfile.dietaryRestrictions.length)).mul (.num 10))
  -- Rating bonus (5% weight)
  let score := score.add (.num restaurant.rating)
  -- Distance penalty (closer is better)
  let score := score.sub ((JSNum.num restaurant.distanceFromUser).mul (.num 2))
  JSNum.maxJS (.num 0) score

/-- Stable insertion of a score-decorated restaurant into an already sorted
list, following the engine semantics of `sort((a, b) => b.score - a.score)`:
the element moves past exactly those entries whose score it is strictly
below (a NaN comparator value keeps input order). -/
def insertByScore (x : Restaurant × JSNum) :
    List (Restaurant × JSNum) → List (Restaurant × JSNum)
  | [] => [x]
  | y :: ys =>
      if JSNum.ltJS x.2 y.2 then y :: insertByScore x ys else x :: y :: ys

/-- Stable sort of score-decorated restaurants, descending by score. -/
def sortByScoreDesc : List (Restaurant × JSNum) → List (Restaurant × JSNum)
  | [] => []
  | x :: xs => insertByScore x (sortByScoreDesc xs)

/-- `LLMService.mockRankingAlgorithm`: decorate with the score, sort
descending (stably), drop the score. -/
def mockRankingAlgorithm (restaurants : List Restaurant)
    (userProfile : UserProfile) : List Restaurant :=
  (sortByScoreDesc (restaurants.map
    fun restaurant => (restaurant, calculateRestaurantScore restaurant userProfile))).map
    Prod.fst

/-- `LLMService.generateMockReasoning`.  Dereferences the first ranked
restaurant unconditionally: on an empty ranking the JavaScript original
throws a TypeError, modelled as `none`. -/
def generateMockReasoning (rankedRestaurants : List Restaurant)
    (userProfile : UserProfile) : Option String :=
  match rankedRestaurants with
  | [] => none
  | topRestaurant :: _ =>
      let reasons : List String :=
        (if userProfile.cuisinePreferences.contains topRestaurant.cuisineType
          then ["matches your preferred " ++ topRestaurant.cuisineType ++ " cuisine"]
          else []) ++
        (if topRestaurant.priceRange = userProfile.priceRangePreference
          then ["fits your " ++ userProfile.priceRangePreference ++
            " price range preference"]
          else []) ++
        (if topRestaurant.ambianceType = userProfile.ambiancePreference
          then ["offers the " ++ userProfile.ambiancePreference ++
            " ambiance you prefer"]
          else []) ++
        (let matchingDietary := userProfile.dietaryRestrictions.filter
          fun restriction => topRestaurant.dietaryOptions.contains restriction
         if matchingDietary.length > 0
          then ["accommodates your " ++ String.intercalate ", " matchingDietary ++
            " dietary needs"]
          else []) ++
        ["has excellent " ++ toString topRestaurant.rating ++ "/5 rating",
         "is conveniently located " ++ toString topRestaurant.distanceFromUser ++
           "km away"]
      some ("I ranked " ++ topRestaurant.name ++
        " as the top choice because it " ++ String.intercalate ", " reasons ++
        ". The other restaurants were ranked based on similar criteria, balancing your preferences for cuisine type, price range, ambiance, dietary requirements, ratings, and proximity to your location.")

/-- `LLMService.rankRestaurants` (public operation): rank, generate the
reasoning (which throws on an empty ranking), and keep the top 6.
`now` models `new Date().toISOString()`. -/
def rankRestaurants (restaurants : List Restaurant)
    (userProfile : UserProfile) (now : String) : Option LLMRankingResponse :=
  let rankedRestaurants := mockRankingAlgorithm restaurants userProfile
  (generateMockReasoning rankedRestaurants userProfile).map
    fun reasoning =>
      { rankedRestaurants := rankedRestaurants.take 6
        reasoning := reasoning
        timestamp := now }

end LLMService

/-! Concrete sample data used to instantiate the theorems. -/

/-- A concrete restaurant record used as test input. -/
def sampleRestaurant : Restaurant :=
  { id := "rest-001"
    name := "Trattoria Roma"
    address := "Main Street 1"
    cuisineType := "Italian"
    priceRange := "€€"
    rating := 9/2
    dietaryOptions := ["vegetarian"]
    ambianceType := "romantic"
    phoneNumber := "+31201234567"
    distanceFromUser := 1/2
    coordinates := { lat := 52, lng := 5 } }

/-- A concrete user profile used as test input. -/
def sampleProfile : UserProfile :=
  { name := "Anna"
    surname := "Smith"
    cuisinePreferences := ["Italian"]
    priceRangePreference := "€€"
    dietaryRestrictions := ["vegetarian"]
    ambiancePreference := "romantic" }

/-- Seven identical restaurants, an input longer than the public top-6. -/
def sevenRestaurants : List Restaurant := List.replicate 7 sampleRestaurant

/-- A concrete user profile with no dietary restrictions. -/
def emptyDietProfile : UserProfile :=
  { name := "Anna"
    surname := "Smith"
    cuisinePreferences := ["Italian"]
    priceRangePreference := "€€"
    dietaryRestrictions := []
    ambiancePreference := "romantic" }

/-- Uppercase alphanumeric characters: decimal digits and `A`–`Z`. -/
def isUpperAlnum (c : Char) : Bool :=
  c.isDigit || ('A' ≤ c && c ≤ 'Z')

/-- The booking-reference format of the spec: `TT` followed by exactly 6
decimal digits followed by exactly 3 uppercase alphanumeric characters. -/
def matchesBookingRefFormat (s : String) : Bool :=
  let cs := s.toList
  (cs.take 2 == ['T', 'T']) &&
  ((cs.drop 2).length == 9) &&
  ((cs.drop 2).take 6).all Char.isDigit &&
  ((cs.drop 2).drop 6).all isUpperAlnum

open CallingService LLMService

/-- Every character emitted by `decDigits` is a decimal digit. -/
theorem decDigits_all_digits (t : Nat) :
    ∀ c ∈ decDigits t, c.isDigit = true := by
  induction t using Nat.strong_induction_on with
  | _ t ih =>
    rw [decDigits]
    split
    next h =>
      intro c hc
      simp only [List.mem_singleton] at hc
      subst hc
      interval_cases t <;> decide
    next h =>
      intro c hc
      rcases List.mem_append.mp hc with h1 | h2
      · exact ih (t / 10) (Nat.div_lt_self (by omega) (by omega)) c h1
      · simp only [List.mem_singleton] at h2
        subst h2
        have hm : t % 10 < 10 := Nat.mod_lt _ (by omega)
        set m := t % 10 with hmdef
        interval_cases m <;> decide

/-- A number with at least `k + 1` decimal digits yields at least `k + 1`
digit characters. -/
theorem decDigits_length_ge (k : Nat) :
    ∀ t : Nat, 10 ^ k ≤ t → k + 1 ≤ (decDigits t).length := by
  induction k with
  | zero =>
    intro t ht
    rw [decDigits]
    split
    · simp
    · simp
  | succ k ih =>
    intro t ht
    have h10 : ¬ t < 10 := by
      have h1 : (10 : Nat) ≤ 10 ^ (k + 1) := by
        calc (10 : Nat) = 10 ^ 1 := (pow_one 10).symm
          _ ≤ 10 ^ (k + 1) := Nat.pow_le_pow_right (by omega) (by omega)
      omega
    rw [decDigits, dif_neg h10, List.length_append]
    have hdiv : 10 ^ k ≤ t / 10 := by
      rw [Nat.le_div_iff_mul_le (by omega)]
      calc 10 ^ k * 10 = 10 ^ (k + 1) := by ring
        _ ≤ t := ht
    have := ih (t / 10) hdiv
    simp only [List.length_singleton]
    omega

/-- Uppercasing a base-36 digit character yields an uppercase alphanumeric. -/
theorem base36Char_upper_alnum (d : Nat) (h : d < 36) :
    isUpperAlnum ((base36Char d).toUpper) = true := by
  interval_cases d <;> decide

/-- C9 counterexample: when the `Math.random()` draw is 0 its base-36
representation is the bare string "0", the three-character slice is empty,
and the generated reference (`TT` + 6 digits only) does not match the
claimed format. -/
theorem bookingReference_format_counterexample :
    matchesBookingRefFormat
      (generateBookingReference 1727000000000 []) = false := by
  have h : decDigits 1727000000000 =
      ['1', '7', '2', '7', '0', '0', '0', '0', '0', '0', '0', '0', '0'] := by
    simp [decDigits, base36Char]
  simp only [generateBookingReference, h]
  decide

/-- C9 (amended): the booking reference matches `TT` + 6 digits + 3
uppercase alphanumerics whenever the millisecond timestamp has at least 6
decimal digits and the random draw's base-36 fractional expansion supplies
at least 3 digits (each a base-36 digit). -/
theorem bookingReference_format (t : Nat) (frac : List Nat)
    (ht : 100000 ≤ t) (hlen : 3 ≤ frac.length) (hdig : ∀ d ∈ frac, d < 36) :
    matchesBookingRefFormat (generateBookingReference t frac) = true := by
  have h6 : 6 ≤ (decDigits t).length := by
    have h5 : 10 ^ 5 ≤ t := by norm_num; omega
    have := decDigits_length_ge 5 t h5
    omega
  have hlen6 : ((decDigits t).drop ((decDigits t).length - 6)).length = 6 := by
    rw [List.length_drop]; omega
  have hlens : ((frac.take 3).map (fun d => (base36Char d).toUpper)).length = 3 := by
    rw [List.length_map, List.length_take]; omega
  have hstr : (generateBookingReference t frac).toList =
      'T' :: 'T' :: ((decDigits t).drop ((decDigits t).length - 6) ++
        (frac.take 3).map (fun d => (base36Char d).toUpper)) := rfl
  rw [matchesBookingRefFormat]
  simp only [hstr, List.take_succ_cons, List.take_zero, List.drop_succ_cons,
    List.drop_zero, Bool.and_eq_true]
  refine ⟨⟨⟨rfl, ?_⟩, ?_⟩, ?_⟩
  · rw [beq_iff_eq, List.length_append, hlen6, hlens]
  · rw [List.take_left' hlen6]
    exact List.all_eq_true.mpr fun c hc =>
      decDigits_all_digits t c (List.drop_subset _ _ hc)
  · rw [List.drop_left' hlen6]
    refine List.all_eq_true.mpr fun c hc => ?_
    obtain ⟨d, hd, rfl⟩ := List.mem_map.mp hc
    exact base36Char_upper_alnum d (hdig d (List.take_subset _ _ hd))

/-- Witness for C9 at a 13-digit timestamp and a 3-digit draw expansion. -/
theorem bookingReference_format_witness :
    matchesBookingRefFormat
      (generateBookingReference 1727000000000 [10, 0, 35]) = true :=
  bookingReference_format 1727000000000 [10, 0, 35] (by norm_num)
    (by norm_num) (by decide)

/-- C6: the Fallback Path availability probability for 1-indexed candidate
position k equals `max(0.3, 0.9 - (k-1)*0.2)`; it is 0.9 at position 1,
0.3 at position 4, stays 0.3 from position 5 on, and `mockCallBehavior`
succeeds exactly when its random draw falls below this threshold. -/
theorem fallback_availability_probability (k : Nat) :
    availabilityChance k = max (3/10) (9/10 - ((k : ℚ) - 1) * (2/10)) ∧
    availabilityChance 1 = 9/10 ∧
    availabilityChance 4 = 3/10 ∧
    (5 ≤ k → availabilityChance k = 3/10) ∧
    (∀ (draw : ℚ) (t : Nat) (frac : List Nat) (r : Restaurant) (un us : String),
      (mockCallBehavior draw t frac r un us k).isSome =
        decide (draw < availabilityChance k)) := by
  refine ⟨rfl, by norm_num [availabilityChance], by norm_num [availabilityChance],
    fun h5 => ?_, fun draw t frac r un us => ?_⟩
  · have hk : (5 : ℚ) ≤ (k : ℚ) := by exact_mod_cast h5
    rw [availabilityChance, max_eq_left (by linarith)]
  · rw [mockCallBehavior]
    split
    next h => simp [h]
    next h => simp [h]

/-- Witness for C6 at position 7 and a concrete fallback draw. -/
theorem fallback_availability_probability_witness :
    availabilityChance 7 = 3/10 ∧
    (mockCallBehavior (1/2) 0 [] sampleRestaurant "Anna" "Smith" 7).isSome =
      decide ((1/2 : ℚ) < availabilityChance 7) := by
  exact ⟨(fallback_availability_probability 7).2.2.2.1 (by omega),
    (fallback_availability_probability 7).2.2.2.2 (1/2) 0 [] sampleRestaurant
      "Anna" "Smith"⟩

/-- C3: interpreting a terminal call status: `completed` succeeds exactly
when the availability draw is below 0.7, and success yields a booking for
this candidate at 19:00 for 2 people; `busy`, `no-answer`, `failed` and any
unrecognised status yield null; and whenever a terminal status was obtained
the Fallback Path is not entered. -/
theorem processCallResult_outcomes (restaurant : Restaurant)
    (un us : String) (draw : ℚ) (t : Nat) (frac : List Nat) :
    (draw < 7/10 →
      ∃ b, processCallResult "completed" draw t frac restaurant un us = some b ∧
        b.restaurantId = restaurant.id ∧ b.restaurant = restaurant ∧
        b.bookingTime = "19:00" ∧ b.numberOfPeople = 2) ∧
    (¬ draw < 7/10 →
      processCallResult "completed" draw t frac restaurant un us = none) ∧
    processCallResult "busy" draw t frac restaurant un us = none ∧
    processCallResult "no-answer" draw t frac restaurant un us = none ∧
    processCallResult "failed" draw t frac restaurant un us = none ∧
    (∀ s : String, s ≠ "completed" → s ≠ "busy" → s ≠ "no-answer" →
      s ≠ "failed" → processCallResult s draw t frac restaurant un us = none) ∧
    (∀ (env : CallEnv) (callId finalStatus : String) (cn tc : Nat),
      env.submission = some callId →
      waitForCallCompletion env.polls = some finalStatus →
      callRestaurant env restaurant un us cn tc =
        { result := processCallResult finalStatus env.completedDraw
            env.timestamp env.randFrac restaurant un us
          fallbackUsed := false }) := by
  refine ⟨fun hlt => ?_, fun hge => ?_, rfl, rfl, rfl,
    fun s h1 h2 h3 h4 => ?_, fun env callId finalStatus cn tc hsub hwait => ?_⟩
  · refine ⟨⟨restaurant.id, restaurant, "19:00", 2,
      generateBookingReference t frac,
      "Booking confirmed for " ++ un ++ " " ++ us ++
        ", table for 2 at 19:00 today. Reference: " ++
        generateBookingReference t frac⟩, ?_, rfl, rfl, rfl, rfl⟩
    rw [processCallResult]
    simp [hlt]
  · rw [processCallResult]; simp [hge]
  · rw [processCallResult]; simp [h1, h2, h3, h4]
  · simp only [callRestaurant, hsub, hwait]

/-- Witness for C3 with a succeeding draw of 0.5 and a concrete polling
environment whose first poll reports `completed`. -/
theorem processCallResult_outcomes_witness :
    (processCallResult "completed" (1/2) 0 [] sampleRestaurant "Anna"
      "Smith").isSome = true ∧
    processCallResult "queued" (1/2) 0 [] sampleRestaurant "Anna" "Smith" =
      none ∧
    (callRestaurant
      { submission := some "call-1", polls := fun _ => some "completed"
        completedDraw := 1/2, fallbackDraw := 0, timestamp := 0, randFrac := [] }
      sampleRestaurant "Anna" "Smith" 1 1).fallbackUsed = false := by
  have h := processCallResult_outcomes sampleRestaurant "Anna" "Smith" (1/2) 0 []
  obtain ⟨b, hb, -⟩ := h.1 (by norm_num)
  refine ⟨by rw [hb]; rfl, h.2.2.2.2.2.1 "queued" (by decide) (by decide)
    (by decide) (by decide), ?_⟩
  rw [h.2.2.2.2.2.2 _ "call-1" "completed" 1 1 rfl (by rfl)]

/-- C4 counterexample: the submitted call request does not carry the
candidate's phone number as callee — a fixed test number is dialed. -/
theorem callRequest_callee_counterexample :
    (buildCallRequest sampleRestaurant "Anna" "Smith").«to» ≠
      sampleRestaurant.phoneNumber := by decide

/-- C4 (amended): for every candidate the submitted call request carries the
fixed test number `+31645143042` as callee, a voice message identifying the
caller by name and requesting a table for 2 at 7 PM today, and a hang-up
step after the message. -/
theorem callRequest_fields (restaurant : Restaurant) (userName userSurname : String) :
    (buildCallRequest restaurant userName userSurname).«to» = "+31645143042" ∧
    (buildCallRequest restaurant userName userSurname).callFlow =
      [ { command := "say"
          options := some
            { locale := "en-US"
              text := "Hello, this is " ++ userName ++ " " ++ userSurname ++
                " calling " ++ restaurant.name ++
                " to make a reservation. I would like to book a table for 2 people at 7 PM today. Could you please check availability?"
              voice := "female" } }
      , { command := "hangup", options := none } ] :=
  ⟨rfl, rfl⟩

/-- C7: with an empty `dietaryRestrictions` list the score computation
divides zero by zero, so the resulting score is NaN rather than a
well-defined number (the dietary term does not contribute 0). -/
theorem score_nan_on_empty_dietary (restaurant : Restaurant)
    (userProfile : UserProfile) (h : userProfile.dietaryRestrictions = []) :
    calculateRestaurantScore restaurant userProfile = JSNum.nan := by
  simp only [calculateRestaurantScore, h, List.filter_nil, List.length_nil]
  split_ifs <;> rfl

/-- Witness for C7: the NaN score at a concrete restaurant and profile. -/
theorem score_nan_on_empty_dietary_witness :
    calculateRestaurantScore sampleRestaurant emptyDietProfile = JSNum.nan :=
  score_nan_on_empty_dietary sampleRestaurant emptyDietProfile rfl

/-- C10: the public ranking operation rejects the empty candidate list
(reasoning generation dereferences the first ranked candidate, modelled as
`none`) and succeeds on every non-empty list. -/
theorem rankRestaurants_empty_rejected (userProfile : UserProfile) (now : String) :
    rankRestaurants [] userProfile now = none ∧
    (∀ restaurants : List Restaurant, restaurants ≠ [] →
      (rankRestaurants restaurants userProfile now).isSome = true) := by
  constructor
  · rfl
  · intro restaurants hne
    have hlen : (mockRankingAlgorithm restaurants userProfile).length =
        restaurants.length := by
      rw [mockRankingAlgorithm, List.length_map]
      have : ∀ l : List (Restaurant × JSNum),
          (sortByScoreDesc l).length = l.length := by
        intro l
        induction l with
        | nil => rfl
        | cons x xs ih =>
          rw [sortByScoreDesc]
          have hins : ∀ (y : Restaurant × JSNum) (m : List (Restaurant × JSNum)),
              (insertByScore y m).length = m.length + 1 := by
            intro y m
            induction m with
            | nil => rfl
            | cons z zs ihz =>
              rw [insertByScore]
              split
              · simp [ihz]
              · simp
          rw [hins, ih, List.length_cons]
      rw [this, List.length_map]
    rw [rankRestaurants]
    cases hmr : mockRankingAlgorithm restaurants userProfile with
    | nil =>
      exfalso
      apply hne
      have := hlen
      rw [hmr] at this
      exact List.length_eq_zero.mp this.symm
    | cons top rest => rfl

/-- If every poll within the budget errors or reports a non-terminal status,
the polling loop returns null. -/
theorem waitLoop_none (polls : Nat → Option String) :
    ∀ fuel tick : Nat,
    (∀ i, tick ≤ i → i < tick + fuel → ∀ s, polls i = some s →
      isTerminalStatus s = false) →
    waitLoop polls tick fuel = none := by
  intro fuel
  induction fuel with
  | zero => intro tick h; rfl
  | succ fuel ih =>
    intro tick h
    rw [waitLoop]
    cases hp : polls tick with
    | none =>
      exact ih (tick + 1) fun i h1 h2 s hs => h i (by omega) (by omega) s hs
    | some s =>
      have hterm := h tick le_rfl (by omega) s hp
      show (if isTerminalStatus s = true then some s
        else waitLoop polls (tick + 1) fuel) = none
      rw [hterm]
      simp only [Bool.false_eq_true, if_false]
      exact ih (tick + 1) fun i h1 h2 s0 hs0 => h i (by omega) (by omega) s0 hs0

/-- Poll errors are skipped tick by tick: the first in-budget terminal
status reached after any number of failed polls is returned. -/
theorem waitLoop_finds (polls : Nat → Option String) (s : String)
    (hterm : isTerminalStatus s = true) :
    ∀ fuel tick j : Nat, tick ≤ j → j < tick + fuel →
    (∀ i, tick ≤ i → i < j → polls i = none) →
    polls j = some s →
    waitLoop polls tick fuel = some s := by
  intro fuel
  induction fuel with
  | zero => intro tick j h1 h2; omega
  | succ fuel ih =>
    intro tick j h1 h2 herr hj
    by_cases hjt : j = tick
    · subst hjt
      rw [waitLoop, hj]
      show (if isTerminalStatus s = true then some s
        else waitLoop polls (j + 1) fuel) = some s
      rw [hterm]
      simp
    · have hnone : polls tick = none := herr tick le_rfl (by omega)
      rw [waitLoop, hnone]
      exact ih (tick + 1) j (by omega) (by omega)
        (fun i hi1 hi2 => herr i (by omega) hi2) hj

/-- C5: a call-submission failure and a 60-second status-poll timeout are
both recovered locally through the Fallback Path (`mockCallBehavior`) —
the attempt still returns an ordinary booking-or-null outcome — and an
individual failed status poll does not abort the attempt: polling resumes
on the next tick until a terminal status arrives within the 30-tick
(60000 ms / 2000 ms) budget. -/
theorem submission_and_poll_failures_recovered (env : CallEnv)
    (restaurant : Restaurant) (un us : String) (cn tc : Nat) :
    (env.submission = none →
      callRestaurant env restaurant un us cn tc =
        { result := mockCallBehavior env.fallbackDraw env.timestamp
            env.randFrac restaurant un us cn
          fallbackUsed := true }) ∧
    (env.submission ≠ none →
      (∀ i, i < 30 → ∀ s, env.polls i = some s → isTerminalStatus s = false) →
      waitForCallCompletion env.polls = none ∧
      callRestaurant env restaurant un us cn tc =
        { result := mockCallBehavior env.fallbackDraw env.timestamp
            env.randFrac restaurant un us cn
          fallbackUsed := true }) ∧
    (∀ j s, j < 30 → (∀ i, i < j → env.polls i = none) →
      env.polls j = some s → isTerminalStatus s = true →
      waitForCallCompletion env.polls = some s) := by
  refine ⟨fun hsub => ?_, fun hsub hnt => ?_, fun j s hj herr hjs hterm => ?_⟩
  · simp only [callRestaurant, hsub]
  · obtain ⟨callId, hx⟩ := Option.ne_none_iff_exists.mp hsub
    have hwait : waitForCallCompletion env.polls = none :=
      waitLoop_none env.polls 30 0 fun i h1 h2 s hs => hnt i (by omega) s hs
    refine ⟨hwait, ?_⟩
    simp only [callRestaurant, ← hx, hwait]
  · exact waitLoop_finds env.polls s hterm 30 0 j (by omega) (by omega)
      (fun i hi1 hi2 => herr i hi2) hjs

/-- Witness for C5: a failed submission falls back; thirty `ringing` polls
time out and fall back; two poll errors followed by a terminal `busy`
status still resolve to `busy`. -/
theorem submission_and_poll_failures_recovered_witness :
    (callRestaurant
      { submission := none, polls := fun _ => none, completedDraw := 0
        fallbackDraw := 1/2, timestamp := 0, randFrac := [] }
      sampleRestaurant "Anna" "Smith" 1 3).fallbackUsed = true ∧
    waitForCallCompletion (fun _ => some "ringing") = none ∧
    waitForCallCompletion
      (fun i => if i < 2 then none else some "busy") = some "busy" := by
  refine ⟨?_, ?_, ?_⟩
  · rw [(submission_and_poll_failures_recovered
      { submission := none, polls := fun _ => none, completedDraw := 0
        fallbackDraw := 1/2, timestamp := 0, randFrac := [] }
      sampleRestaurant "Anna" "Smith" 1 3).1 rfl]
  · exact ((submission_and_poll_failures_recovered
      { submission := some "call-1", polls := fun _ => some "ringing"
        completedDraw := 0, fallbackDraw := 0, timestamp := 0, randFrac := [] }
      sampleRestaurant "Anna" "Smith" 1 3).2.1 (by simp)
      (fun i hi s hs => by
        have : s = "ringing" := (Option.some.inj hs).symm
        subst this
        decide)).1
  · exact (submission_and_poll_failures_recovered
      { submission := some "call-1"
        polls := fun i => if i < 2 then none else some "busy"
        completedDraw := 0, fallbackDraw := 0, timestamp := 0, randFrac := [] }
      sampleRestaurant "Anna" "Smith" 1 3).2.2 2 "busy" (by omega)
      (fun i hi => by simp [hi]) (by simp) (by decide)

/-- A start/resolved block contributes exactly its own position to the
start indices of a trace. -/
theorem startIndices_cons_block (i : Nat) (b : Bool) (T : List CallEvent) :
    startIndices (.start i :: .resolved i b :: T) = i :: startIndices T := rfl

/-- The loop of `callRestaurants`, started at 0-based position `i`: if every
remaining attempt fails, the run returns null after calling each remaining
candidate once; and the first success among the remaining candidates is
returned immediately, after exactly that many calls. -/
theorem callRun_spec (envs : Nat → CallEnv) (un us : String) (total : Nat) :
    ∀ (rs : List Restaurant) (i : Nat),
    ((∀ j (hj : j < rs.length),
        (callRestaurant (envs (i + j)) (rs.get ⟨j, hj⟩) un us (i + j + 1)
          total).result = none) →
      (callRun envs un us total rs i).result = none ∧
      callCount (callRun envs un us total rs i) = rs.length) ∧
    (∀ k (hk : k < rs.length) (b : BookingDetails),
      (∀ j (hj : j < k),
        (callRestaurant (envs (i + j)) (rs.get ⟨j, by omega⟩) un us (i + j + 1)
          total).result = none) →
      (callRestaurant (envs (i + k)) (rs.get ⟨k, hk⟩) un us (i + k + 1)
        total).result = some b →
      (callRun envs un us total rs i).result = some b ∧
      callCount (callRun envs un us total rs i) = k + 1) := by
  intro rs
  induction rs with
  | nil =>
    intro i
    exact ⟨fun h => ⟨rfl, rfl⟩, fun k hk => absurd hk (by simp)⟩
  | cons r rest ih =>
    intro i
    constructor
    · intro h
      have h0 : (callRestaurant (envs i) r un us (i + 1) total).result = none := by
        have := h 0 (by simp)
        simpa using this
      have hrest := (ih (i + 1)).1 (fun j hj => by
        have hlt : j + 1 < (r :: rest).length := by simpa using Nat.succ_lt_succ hj
        have := h (j + 1) hlt
        have e : i + 1 + j = i + (j + 1) := by omega
        rw [e]
        simpa using this)
      have hstep : callRun envs un us total (r :: rest) i =
          { trace := CallEvent.start i :: CallEvent.resolved i false ::
              (callRun envs un us total rest (i + 1)).trace
            result := (callRun envs un us total rest (i + 1)).result } := by
        simp only [callRun, h0]
      rw [hstep]
      refine ⟨hrest.1, ?_⟩
      show (startIndices (CallEvent.start i :: CallEvent.resolved i false ::
        (callRun envs un us total rest (i + 1)).trace)).length = rest.length + 1
      rw [startIndices_cons_block, List.length_cons]
      have := hrest.2
      simp only [callCount] at this
      omega
    · intro k hk b hprev hsucc
      cases k with
      | zero =>
        have h0 : (callRestaurant (envs i) r un us (i + 1) total).result =
            some b := by simpa using hsucc
        have hstep : callRun envs un us total (r :: rest) i =
            { trace := [CallEvent.start i, CallEvent.resolved i true]
              result := some b } := by
          simp only [callRun, h0]
        rw [hstep]
        exact ⟨rfl, rfl⟩
      | succ k =>
        have h0 : (callRestaurant (envs i) r un us (i + 1) total).result =
            none := by
          have := hprev 0 (by omega)
          simpa using this
        have hrest := (ih (i + 1)).2 k (by simpa using Nat.lt_of_succ_lt_succ hk)
          b
          (fun j hj => by
            have := hprev (j + 1) (by omega)
            have e : i + 1 + j = i + (j + 1) := by omega
            rw [e]
            simpa using this)
          (by
            have e : i + 1 + k = i + (k + 1) := by omega
            rw [e]
            simpa using hsucc)
        have hstep : callRun envs un us total (r :: rest) i =
            { trace := CallEvent.start i :: CallEvent.resolved i false ::
                (callRun envs un us total rest (i + 1)).trace
              result := (callRun envs un us total rest (i + 1)).result } := by
          simp only [callRun, h0]
        rw [hstep]
        refine ⟨hrest.1, ?_⟩
        show (startIndices (CallEvent.start i :: CallEvent.resolved i false ::
          (callRun envs un us total rest (i + 1)).trace)).length = k + 1 + 1
        rw [startIndices_cons_block, List.length_cons]
        have := hrest.2
        simp only [callCount] at this
        omega

/-- C1: `callRestaurants` iterates the candidates strictly in list order,
returns the BookingRecord of the first successful attempt without calling
any later candidate (call count = position of the success), and when every
attempt yields null it returns null after exactly list-length calls. -/
theorem callRestaurants_first_success (envs : Nat → CallEnv)
    (rs : List Restaurant) (un us : String) :
    ((∀ j (hj : j < rs.length),
        (callRestaurant (envs j) (rs.get ⟨j, hj⟩) un us (j + 1)
          rs.length).result = none) →
      (callRestaurants envs rs un us).result = none ∧
      callCount (callRestaurants envs rs un us) = rs.length) ∧
    (∀ k (hk : k < rs.length) (b : BookingDetails),
      (∀ j (hj : j < k),
        (callRestaurant (envs j) (rs.get ⟨j, by omega⟩) un us (j + 1)
          rs.length).result = none) →
      (callRestaurant (envs k) (rs.get ⟨k, hk⟩) un us (k + 1)
        rs.length).result = some b →
      (callRestaurants envs rs un us).result = some b ∧
      callCount (callRestaurants envs rs un us) = k + 1) := by
  have h := callRun_spec envs un us rs.length rs 0
  simpa using h

/-- Witness for C1: with a fallback draw of 1 every mock attempt declines,
so a two-candidate run makes 2 calls and returns null; with a fallback draw
of 0 the first mock attempt succeeds, so the run makes exactly 1 call. -/
theorem callRestaurants_first_success_witness :
    ((callRestaurants
        (fun _ =>
          { submission := none, polls := fun _ => none, completedDraw := 1
            fallbackDraw := 1, timestamp := 0, randFrac := [] })
        [sampleRestaurant, sampleRestaurant] "Anna" "Smith").result = none ∧
      callCount (callRestaurants
        (fun _ =>
          { submission := none, polls := fun _ => none, completedDraw := 1
            fallbackDraw := 1, timestamp := 0, randFrac := [] })
        [sampleRestaurant, sampleRestaurant] "Anna" "Smith") = 2) ∧
    callCount (callRestaurants
      (fun _ =>
        { submission := none, polls := fun _ => none, completedDraw := 1
          fallbackDraw := 0, timestamp := 0, randFrac := [] })
      [sampleRestaurant, sampleRestaurant] "Anna" "Smith") = 1 := by
  constructor
  · exact (callRestaurants_first_success
      (fun _ =>
        { submission := none, polls := fun _ => none, completedDraw := 1
          fallbackDraw := 1, timestamp := 0, randFrac := [] })
      [sampleRestaurant, sampleRestaurant] "Anna" "Smith").1
      (fun j hj => by
        have hj2 : j < 2 := by simpa using hj
        interval_cases j
        · show mockCallBehavior 1 0 [] sampleRestaurant "Anna" "Smith" 1 = none
          rw [mockCallBehavior, if_neg (by norm_num [availabilityChance])]
        · show mockCallBehavior 1 0 [] sampleRestaurant "Anna" "Smith" 2 = none
          rw [mockCallBehavior, if_neg (by norm_num [availabilityChance])])
  · have hpos : (0 : ℚ) < availabilityChance 1 := by
      norm_num [availabilityChance]
    have hsome : (mockCallBehavior 0 0 [] sampleRestaurant "Anna" "Smith"
        1).isSome = true := by
      rw [mockCallBehavior, if_pos hpos]
      rfl
    have hs : ((callRestaurant
        { submission := none, polls := fun _ => none, completedDraw := 1
          fallbackDraw := 0, timestamp := 0, randFrac := [] }
        sampleRestaurant "Anna" "Smith" 1 2).result).isSome = true := hsome
    obtain ⟨b, hb⟩ := Option.isSome_iff_exists.mp hs
    exact ((callRestaurants_first_success
      (fun _ =>
        { submission := none, polls := fun _ => none, completedDraw := 1
          fallbackDraw := 0, timestamp := 0, randFrac := [] })
      [sampleRestaurant, sampleRestaurant] "Anna" "Smith").2 0 (by decide) b
      (fun j hj => absurd hj (by omega)) hb).2

/-- The trace of the calling loop consists of consecutive start/resolved
blocks at increasing positions, with no start after a success. -/
theorem callRun_trace (envs : Nat → CallEnv) (un us : String) (total : Nat) :
    ∀ (rs : List Restaurant) (i : Nat),
      pairedTrace (callRun envs un us total rs i).trace = true ∧
      noStartAfterSuccess (callRun envs un us total rs i).trace = true ∧
      startIndices (callRun envs un us total rs i).trace =
        List.range' i (callCount (callRun envs un us total rs i)) := by
  intro rs
  induction rs with
  | nil => intro i; exact ⟨rfl, rfl, rfl⟩
  | cons r rest ih =>
    intro i
    cases hres : (callRestaurant (envs i) r un us (i + 1) total).result with
    | some b =>
      have hstep : callRun envs un us total (r :: rest) i =
          { trace := [CallEvent.start i, CallEvent.resolved i true]
            result := some b } := by
        simp only [callRun, hres]
      rw [hstep]
      exact ⟨by simp [pairedTrace], rfl, rfl⟩
    | none =>
      have hstep : callRun envs un us total (r :: rest) i =
          { trace := CallEvent.start i :: CallEvent.resolved i false ::
              (callRun envs un us total rest (i + 1)).trace
            result := (callRun envs un us total rest (i + 1)).result } := by
        simp only [callRun, hres]
      rw [hstep]
      obtain ⟨p1, p2, p3⟩ := ih (i + 1)
      refine ⟨by simpa [pairedTrace] using p1,
        by simpa [noStartAfterSuccess] using p2, ?_⟩
      show startIndices (CallEvent.start i :: CallEvent.resolved i false ::
        (callRun envs un us total rest (i + 1)).trace) = _
      rw [startIndices_cons_block]
      have hcount : callCount
          { trace := CallEvent.start i :: CallEvent.resolved i false ::
              (callRun envs un us total rest (i + 1)).trace
            result := (callRun envs un us total rest (i + 1)).result } =
          callCount (callRun envs un us total rest (i + 1)) + 1 := by
        show (startIndices (CallEvent.start i :: CallEvent.resolved i false ::
          (callRun envs un us total rest (i + 1)).trace)).length = _
        rw [startIndices_cons_block, List.length_cons]
        rfl
      rw [hcount, p3]
      rfl

/-- C2: throughout every run, calls happen one at a time — the trace is a
sequence of start/resolved pairs, candidate N+1 is started only after
candidate N is resolved (start positions are exactly 0, 1, 2, ... in
order), and once a booking succeeds no further call is started. -/
theorem calls_strictly_sequential (envs : Nat → CallEnv)
    (rs : List Restaurant) (un us : String) :
    pairedTrace (callRestaurants envs rs un us).trace = true ∧
    noStartAfterSuccess (callRestaurants envs rs un us).trace = true ∧
    startIndices (callRestaurants envs rs un us).trace =
      List.range (callCount (callRestaurants envs rs un us)) := by
  obtain ⟨p1, p2, p3⟩ := callRun_trace envs un us rs.length rs 0
  refine ⟨p1, p2, ?_⟩
  rw [List.range_eq_range']
  exact p3

/-- Witness for C10: the empty list is rejected, a singleton is ranked. -/
theorem rankRestaurants_empty_rejected_witness :
    rankRestaurants [] sampleProfile "2026-10-12" = none ∧
    (rankRestaurants [sampleRestaurant] sampleProfile "2026-10-12").isSome = true :=
  ⟨(rankRestaurants_empty_rejected sampleProfile "2026-10-12").1,
    (rankRestaurants_empty_rejected sampleProfile "2026-10-12").2
      [sampleRestaurant] (by simp)⟩

/-- Inserting one element grows the list by one. -/
theorem insertByScore_length (x : Restaurant × JSNum)
    (l : List (Restaurant × JSNum)) :
    (insertByScore x l).length = l.length + 1 := by
  induction l with
  | nil => rfl
  | cons y ys ih =>
    rw [insertByScore]
    split
    · simp [ih]
    · simp

/-- The stable sort preserves length. -/
theorem sortByScoreDesc_length (l : List (Restaurant × JSNum)) :
    (sortByScoreDesc l).length = l.length := by
  induction l with
  | nil => rfl
  | cons x xs ih =>
    rw [sortByScoreDesc, insertByScore_length, ih, List.length_cons]

/-- The ranking algorithm returns as many restaurants as it receives. -/
theorem mockRankingAlgorithm_length (l : List Restaurant) (p : UserProfile) :
    (mockRankingAlgorithm l p).length = l.length := by
  rw [mockRankingAlgorithm, List.length_map, sortByScoreDesc_length,
    List.length_map]

/-- Insertion permutes. -/
theorem insertByScore_perm (x : Restaurant × JSNum)
    (l : List (Restaurant × JSNum)) : (insertByScore x l).Perm (x :: l) := by
  induction l with
  | nil => exact List.Perm.refl _
  | cons y ys ih =>
    rw [insertByScore]
    split
    · exact (ih.cons y).trans (List.Perm.swap x y ys)
    · exact List.Perm.refl _

/-- The stable sort permutes its input. -/
theorem sortByScoreDesc_perm (l : List (Restaurant × JSNum)) :
    (sortByScoreDesc l).Perm l := by
  induction l with
  | nil => exact List.Perm.refl _
  | cons x xs ih =>
    rw [sortByScoreDesc]
    exact (insertByScore_perm x _).trans (ih.cons x)

/-- JavaScript `<` is irreflexive, also on NaN and infinities. -/
theorem ltJS_self (a : JSNum) : JSNum.ltJS a a = false := by
  cases a with
  | num q => simp [JSNum.ltJS]
  | nan => rfl
  | inf s => cases s <;> rfl

/-- On finite numbers, JavaScript `<` is the rational comparison. -/
theorem ltJS_num (a b : JSNum) (ha : a.isNum = true) (hb : b.isNum = true) :
    JSNum.ltJS a b = decide (JSNum.val a < JSNum.val b) := by
  cases a <;> cases b <;>
    simp_all [JSNum.isNum, JSNum.ltJS, JSNum.val]

/-- Stability of insertion: the elements of any fixed score value appear in
the inserted list exactly as in the original, with the new element first
among its own score class only when it reaches it from the left. -/
theorem insertByScore_filter (x : Restaurant × JSNum) (s : JSNum)
    (l : List (Restaurant × JSNum)) :
    (insertByScore x l).filter (fun pr => pr.2 == s) =
      if x.2 = s then x :: l.filter (fun pr => pr.2 == s)
      else l.filter (fun pr => pr.2 == s) := by
  induction l with
  | nil =>
    by_cases hx : x.2 = s
    · simp [insertByScore, hx]
    · simp [insertByScore, hx]
  | cons y ys ih =>
    by_cases hlt : JSNum.ltJS x.2 y.2 = true
    · rw [insertByScore, if_pos hlt, List.filter_cons, ih]
      by_cases hx : x.2 = s
      · have hy : (y.2 == s) = false := by
          refine beq_eq_false_iff_ne.mpr fun hy => ?_
          rw [hx, hy] at hlt
          rw [ltJS_self] at hlt
          exact Bool.false_ne_true hlt
        simp [List.filter_cons, hx, hy]
      · simp [List.filter_cons, hx]
    · rw [insertByScore, if_neg hlt, List.filter_cons]
      by_cases hx : x.2 = s
      · simp [hx]
      · simp [hx]

/-- Stability of the sort: elements of each fixed score value stay in their
original relative order. -/
theorem sortByScoreDesc_filter (s : JSNum) (l : List (Restaurant × JSNum)) :
    (sortByScoreDesc l).filter (fun pr => pr.2 == s) =
      l.filter (fun pr => pr.2 == s) := by
  induction l with
  | nil => rfl
  | cons x xs ih =>
    rw [sortByScoreDesc, insertByScore_filter, ih, List.filter_cons]
    by_cases hx : x.2 = s
    · simp [hx]
    · simp [hx]

/-- Inserting into a descending list (of finite scores) keeps it descending. -/
theorem insertByScore_pairwise (x : Restaurant × JSNum)
    (l : List (Restaurant × JSNum)) (hx : (x.2).isNum = true)
    (hl : ∀ pr ∈ l, (pr.2).isNum = true)
    (hp : l.Pairwise fun a b => JSNum.val b.2 ≤ JSNum.val a.2) :
    (insertByScore x l).Pairwise
      fun a b => JSNum.val b.2 ≤ JSNum.val a.2 := by
  induction l with
  | nil => simp [insertByScore]
  | cons y ys ih =>
    rw [List.pairwise_cons] at hp
    obtain ⟨hy, hys⟩ := hp
    have hyn : (y.2).isNum = true := hl y (by simp)
    by_cases hlt : JSNum.ltJS x.2 y.2 = true
    · rw [insertByScore, if_pos hlt, List.pairwise_cons]
      constructor
      · intro z hz
        have hz2 : z ∈ x :: ys := (insertByScore_perm x ys).mem_iff.mp hz
        rcases List.mem_cons.mp hz2 with rfl | hzys
        · rw [ltJS_num _ _ hx hyn] at hlt
          exact le_of_lt (of_decide_eq_true hlt)
        · exact hy z hzys
      · exact ih (fun pr hpr => hl pr (by simp [hpr])) hys
    · rw [insertByScore, if_neg hlt, List.pairwise_cons]
      have hxy : JSNum.val y.2 ≤ JSNum.val x.2 := by
        rw [ltJS_num _ _ hx hyn] at hlt
        exact le_of_not_lt fun h => hlt (decide_eq_true h)
      constructor
      · intro z hz
        rcases List.mem_cons.mp hz with rfl | hzys
        · exact hxy
        · exact le_trans (hy z hzys) hxy
      · exact List.pairwise_cons.mpr ⟨hy, hys⟩

/-- The sort of a list of finite scores is descending. -/
theorem sortByScoreDesc_pairwise (l : List (Restaurant × JSNum))
    (hl : ∀ pr ∈ l, (pr.2).isNum = true) :
    (sortByScoreDesc l).Pairwise
      fun a b => JSNum.val b.2 ≤ JSNum.val a.2 := by
  induction l with
  | nil => simp [sortByScoreDesc]
  | cons x xs ih =>
    rw [sortByScoreDesc]
    refine insertByScore_pairwise x _ (hl x (by simp)) ?_
      (ih fun pr hpr => hl pr (by simp [hpr]))
    intro pr hpr
    exact hl pr (by
      have := (sortByScoreDesc_perm xs).mem_iff.mp hpr
      simp [this])

/-- Every decorated pair carries the score of its own restaurant. -/
theorem mem_decorate {l : List Restaurant} {p : UserProfile}
    {pr : Restaurant × JSNum}
    (h : pr ∈ l.map fun r => (r, calculateRestaurantScore r p)) :
    pr.2 = calculateRestaurantScore pr.1 p := by
  obtain ⟨r, hr, rfl⟩ := List.mem_map.mp h
  rfl

/-- With a non-empty dietary restriction list the score is a finite number
(the only NaN source is the guarded division). -/
theorem calculateRestaurantScore_isNum (r : Restaurant) (p : UserProfile)
    (h : p.dietaryRestrictions ≠ []) :
    (calculateRestaurantScore r p).isNum = true := by
  have hne : (p.dietaryRestrictions.length : ℚ) ≠ 0 := by
    have hlen : p.dietaryRestrictions.length ≠ 0 := fun hc =>
      h (List.length_eq_zero.mp hc)
    exact_mod_cast hlen
  simp only [calculateRestaurantScore]
  split_ifs <;>
    simp [JSNum.add, JSNum.sub, JSNum.mul, JSNum.div, JSNum.maxJS,
      JSNum.isNum, hne]

/-- C8 counterexample: on a 7-candidate list the public ranking operation
returns only 6 records, so its output is not a reordering (permutation) of
the input. -/
theorem rankRestaurants_slice_counterexample :
    (rankRestaurants sevenRestaurants sampleProfile "2026-10-12").map
        (fun resp => decide (resp.rankedRestaurants.Perm sevenRestaurants)) =
      some false := by
  have hlen : (mockRankingAlgorithm sevenRestaurants sampleProfile).length = 7 := by
    rw [mockRankingAlgorithm_length]; rfl
  cases hmr : mockRankingAlgorithm sevenRestaurants sampleProfile with
  | nil => rw [hmr] at hlen; simp at hlen
  | cons top rest =>
    have hrest : rest.length = 6 := by rw [hmr] at hlen; simpa using hlen
    have hp : ¬ (top :: rest.take 5).Perm sevenRestaurants := by
      intro hperm
      have hle := hperm.length_eq
      rw [List.length_cons, List.length_take, hrest] at hle
      simp [sevenRestaurants] at hle
    simp only [rankRestaurants, hmr, generateMockReasoning, Option.map_map]
    simp [hp]

/-- C8 (amended): for a non-empty candidate list and a profile with a
non-empty dietary restriction list (so that every score is a well-defined
number), the public ranking operation returns the first `min(6, n)`
candidates of the stable descending-by-score reordering of the input, with
the internal score removed: the reordering is a permutation of the input,
its scores are non-increasing, and candidates of equal score keep their
original discovery order. -/
theorem rankRestaurants_sorted_top6 (l : List Restaurant) (p : UserProfile)
    (now : String) (hl : l ≠ []) (hd : p.dietaryRestrictions ≠ []) :
    (rankRestaurants l p now).map LLMRankingResponse.rankedRestaurants =
      some ((mockRankingAlgorithm l p).take 6) ∧
    (mockRankingAlgorithm l p).Perm l ∧
    (mockRankingAlgorithm l p).Pairwise (fun a b =>
      JSNum.val (calculateRestaurantScore b p) ≤
        JSNum.val (calculateRestaurantScore a p)) ∧
    (∀ s : JSNum,
      (mockRankingAlgorithm l p).filter
          (fun r => calculateRestaurantScore r p == s) =
        l.filter fun r => calculateRestaurantScore r p == s) := by
  have hinv : ∀ pr ∈ sortByScoreDesc
      (l.map fun r => (r, calculateRestaurantScore r p)),
      pr.2 = calculateRestaurantScore pr.1 p := fun pr hpr =>
    mem_decorate ((sortByScoreDesc_perm _).mem_iff.mp hpr)
  have hfst : (l.map fun r => (r, calculateRestaurantScore r p)).map
      Prod.fst = l := by
    rw [List.map_map,
      show (Prod.fst ∘ fun r : Restaurant =>
        (r, calculateRestaurantScore r p)) = fun r => r from rfl,
      List.map_id']
  refine ⟨?_, ?_, ?_, ?_⟩
  · have hlen := mockRankingAlgorithm_length l p
    cases hmr : mockRankingAlgorithm l p with
    | nil =>
      exfalso
      apply hl
      rw [hmr] at hlen
      exact List.length_eq_zero.mp hlen.symm
    | cons top rest =>
      simp only [rankRestaurants, hmr, generateMockReasoning, Option.map_map]
      rfl
  · have hperm := (sortByScoreDesc_perm
      (l.map fun r => (r, calculateRestaurantScore r p))).map Prod.fst
    rw [hfst] at hperm
    exact hperm
  · have hnum : ∀ pr ∈ l.map fun r => (r, calculateRestaurantScore r p),
        (pr.2).isNum = true := fun pr hpr => by
      rw [mem_decorate hpr]
      exact calculateRestaurantScore_isNum pr.1 p hd
    have hpw := sortByScoreDesc_pairwise _ hnum
    rw [mockRankingAlgorithm, List.pairwise_map]
    refine List.Pairwise.imp_of_mem (fun ha hb hr => ?_) hpw
    rw [← hinv _ ha, ← hinv _ hb]
    exact hr
  · intro s
    have e1 : (mockRankingAlgorithm l p).filter
        (fun r => calculateRestaurantScore r p == s) =
        ((sortByScoreDesc (l.map fun r => (r, calculateRestaurantScore r p))).filter
          fun pr => calculateRestaurantScore pr.1 p == s).map Prod.fst := by
      rw [mockRankingAlgorithm, List.filter_map]
      rfl
    have e2 : ((sortByScoreDesc
        (l.map fun r => (r, calculateRestaurantScore r p))).filter
          fun pr => calculateRestaurantScore pr.1 p == s) =
        (sortByScoreDesc (l.map fun r => (r, calculateRestaurantScore r p))).filter
          fun pr => pr.2 == s :=
      List.filter_congr fun pr hpr => by rw [hinv pr hpr]
    have e3 := sortByScoreDesc_filter s
      (l.map fun r => (r, calculateRestaurantScore r p))
    have e4 : ((l.map fun r => (r, calculateRestaurantScore r p)).filter
        fun pr => pr.2 == s) =
        (l.map fun r => (r, calculateRestaurantScore r p)).filter
          fun pr => calculateRestaurantScore pr.1 p == s :=
      List.filter_congr fun pr hpr => by rw [mem_decorate hpr]
    have e5 : ((l.map fun r => (r, calculateRestaurantScore r p)).filter
        fun pr => calculateRestaurantScore pr.1 p == s) =
        (l.filter fun r => calculateRestaurantScore r p == s).map
          fun r => (r, calculateRestaurantScore r p) := by
      rw [List.filter_map]
      rfl
    rw [e1, e2, e3, e4, e5, List.map_map,
      show (Prod.fst ∘ fun r : Restaurant =>
        (r, calculateRestaurantScore r p)) = fun r => r from rfl,
      List.map_id']

/-- Witness for C8 on a singleton list and the sample profile. -/
theorem rankRestaurants_sorted_top6_witness :
    (rankRestaurants [sampleRestaurant] sampleProfile "2026-10-12").map
        LLMRankingResponse.rankedRestaurants =
      some ((mockRankingAlgorithm [sampleRestaurant] sampleProfile).take 6) ∧
    (mockRankingAlgorithm [sampleRestaurant] sampleProfile).Perm
      [sampleRestaurant] := by
  have h := rankRestaurants_sorted_top6 [sampleRestaurant] sampleProfile
    "2026-10-12" (by simp) (by simp [sampleProfile])
  exact ⟨h.1, h.2.1⟩

end TableTalk
